import Mathlib

/-!
Verification of the core of `notion-to-hexo`: the Notion-block-to-Markdown
conversion engine (`notion_to_hexo/converter.py`), the paginated block
fetcher and math detector (`notion_to_hexo/notion.py`), and the resilient
request client (`notion_to_hexo/network.py`).

The Python data (JSON dicts) is embedded shallowly: each dict key read by
the code becomes a field, `Option` marks a key that may be absent, and every
`dict.get(key, default)` in the source becomes `Option.getD`.  Functions are
total Lean functions; the only partiality in the source (unbounded recursion
into a lazily fetched block tree, and the `while has_more` pagination loop)
is made total with an explicit fuel parameter, where `none` means only that
the fuel bound was exceeded.
-/

namespace NotionToHexo

/-! ## Inline text renderer (`converter.rich_text_to_markdown`) -/

/-- The `annotations` sub-dict of a Notion rich-text object.  The Python code
reads each flag with `annotations.get('bold')` and tests truthiness, so a
missing flag behaves as `false`. -/
structure Annotations where
  bold : Bool
  italic : Bool
  code : Bool
  strikethrough : Bool
deriving Repr, DecidableEq

/-- Reading `annotations.get(flag)` on an empty dict: every flag falsy. -/
def Annotations.empty : Annotations := ⟨false, false, false, false⟩

/-- The `equation` sub-dict of a rich-text object: `{'expression': ...}`. -/
structure EquationObj where
  expression : Option String
deriving Repr, DecidableEq

/-- One Notion rich-text object as read by `rich_text_to_markdown`:
`type` (default `'text'`), the `equation` payload, `plain_text`,
`annotations` and `href`.  `none` models an absent key. -/
structure RichText where
  type : Option String
  equation : Option EquationObj
  plain_text : Option String
  annotations : Option Annotations
  href : Option String
deriving Repr, DecidableEq

/-- The body of the `for text_obj in rich_text_array` loop of
`rich_text_to_markdown` (converter.py lines 24-51): inline equations render
as `$expression$` short-circuiting everything else; otherwise the text is
wrapped for bold, italic, code and strikethrough in that fixed order, and a
truthy `href` finally wraps it as a Markdown link. -/
def richTextRun (t : RichText) : String :=
  if t.type.getD "text" = "equation" then
    "$" ++ ((t.equation.getD ⟨none⟩).expression.getD "") ++ "$"
  else
    let text := t.plain_text.getD ""
    let ann := t.annotations.getD Annotations.empty
    let text := if ann.bold then "**" ++ text ++ "**" else text
    let text := if ann.italic then "*" ++ text ++ "*" else text
    let text := if ann.code then "`" ++ text ++ "`" else text
    let text := if ann.strikethrough then "~~" ++ text ++ "~~" else text
    let href := t.href.getD ""
    -- Python `if href:` - None and the empty string are both falsy.
    if href = "" then text else "[" ++ text ++ "](" ++ href ++ ")"

/-- Embeds `rich_text_to_markdown` (converter.py lines 12-53): renders each run and
concatenates with the empty separator (`''.join(result)`). -/
def rich_text_to_markdown : List RichText → String
  | [] => ""
  | t :: rest => richTextRun t ++ rich_text_to_markdown rest

/-! ## Resilient request client (`network.request_with_retry`) -/

/-- The constant `config.MAX_RETRIES` (config.py line 24). -/
def MAX_RETRIES : Nat := 3

/-- The constant `config.RETRY_BACKOFF` (config.py line 25). -/
def RETRY_BACKOFF : Nat := 2

/-- What one HTTP attempt does, abstracting
`getattr(requests, method)(url, **kwargs)` followed by
`response.raise_for_status()`: it either yields a response (we keep just an
opaque `Nat` tag), or raises a timeout, a connection error, or an `HTTPError`
carrying `e.response.status_code` (`none` models `e.response is None`). -/
inductive AttemptResult where
  | success (response : Nat)
  | timeout
  | connError
  | httpError (status : Option Nat)
deriving Repr, DecidableEq

/-- The exceptions `request_with_retry` can raise. -/
inductive ReqError where
  | timeout
  | connError
  | httpError (status : Option Nat)
  /-- The defensive `requests.exceptions.RequestException` raised when no
  failure was recorded (network.py line 65). -/
  | fallback
deriving Repr, DecidableEq

/-- The observable outcome of `request_with_retry`: the returned response or
raised exception, the sequence of `time.sleep` durations in order, and how
many attempts were made. -/
structure RetryOutcome where
  result : Except ReqError Nat
  sleeps : List Nat
  attempts : Nat
deriving Repr

/-- The `for attempt in range(MAX_RETRIES)` loop of `request_with_retry`
(network.py lines 38-65).  `k` is the current 0-indexed attempt, `n` the
number of attempts still allowed, `lastExc` the `last_exception` variable and
`sleeps` the `time.sleep` calls so far.  A transient failure (timeout,
connection error, or an `HTTPError` that is not a 4xx with a response)
records the exception, sleeps `RETRY_BACKOFF ** attempt`, and continues; a
4xx `HTTPError` with a response re-raises immediately; exhaustion raises the
last exception, or the defensive fallback when none was recorded. -/
def retryLoop (oracle : Nat → AttemptResult) :
    Nat → Nat → Option ReqError → List Nat → RetryOutcome
  | 0, k, lastExc, sleeps =>
    match lastExc with
    | some e => ⟨.error e, sleeps, k⟩
    | none => ⟨.error .fallback, sleeps, k⟩
  | n + 1, k, _, sleeps =>
    match oracle k with
    | .success r => ⟨.ok r, sleeps, k + 1⟩
    | .timeout =>
      retryLoop oracle n (k + 1) (some .timeout) (sleeps ++ [RETRY_BACKOFF ^ k])
    | .connError =>
      retryLoop oracle n (k + 1) (some .connError) (sleeps ++ [RETRY_BACKOFF ^ k])
    | .httpError st =>
      match st with
      | some s =>
        if 400 ≤ s ∧ s < 500 then ⟨.error (.httpError (some s)), sleeps, k + 1⟩
        else
          retryLoop oracle n (k + 1) (some (.httpError (some s)))
            (sleeps ++ [RETRY_BACKOFF ^ k])
      | none =>
        retryLoop oracle n (k + 1) (some (.httpError none))
          (sleeps ++ [RETRY_BACKOFF ^ k])

/-- Embeds `request_with_retry` (network.py lines 13-65), with the per-attempt
behaviour of the underlying HTTP library abstracted as `oracle`. -/
def request_with_retry (oracle : Nat → AttemptResult) : RetryOutcome :=
  retryLoop oracle MAX_RETRIES 0 none []

/-! ## Block tree renderer (`converter.blocks_to_markdown`) -/

/-- A `{'url': ...}` sub-dict (`file` / `external` payload of an image). -/
structure UrlObj where
  url : Option String
deriving Repr, DecidableEq

/-- A callout `icon` sub-dict; the code reads only `emoji`. -/
structure IconObj where
  emoji : Option String
deriving Repr, DecidableEq

/-- The type-specific payload `block.get(block_type, {})`: every key any
branch of `blocks_to_markdown` reads from `block_content`.  `none` models an
absent key. -/
structure BlockContent where
  rich_text : Option (List RichText)
  checked : Option Bool
  language : Option String
  expression : Option String
  /-- The image payload discriminator `block_content.get('type')`. -/
  type : Option String
  file : Option UrlObj
  external : Option UrlObj
  caption : Option (List RichText)
  icon : Option IconObj
  cells : Option (List (List RichText))
deriving Repr, DecidableEq

/-- The payload `block.get(block_type, {})` when the key is missing: every field absent. -/
def BlockContent.empty : BlockContent :=
  ⟨none, none, none, none, none, none, none, none, none, none⟩

/-- One Notion block as read by `blocks_to_markdown`: `id`, `type`
(`block.get('type')`, possibly absent), `has_children` (missing is falsy),
and the payload stored under the key equal to the block's type (`none`
models a block dict without that key).  `id` is total because the code reads
`block['id']` without a default. -/
structure Block where
  id : String
  type : Option String
  has_children : Bool
  content : Option BlockContent
deriving Repr, DecidableEq

/-- Python `'  ' * level`. -/
def indentStr (level : Nat) : String :=
  String.join (List.replicate level "  ")

/-- Python `text.split('\n')` over the character list: split at every
newline, keeping empty segments (`''.split('\n') == ['']`,
`'a\n'.split('\n') == ['a', '']`). -/
def splitLinesAux : List Char → List (List Char)
  | [] => [[]]
  | c :: rest =>
    match splitLinesAux rest with
    | [] => []
    | hd :: tl => if c = '\n' then [] :: hd :: tl else (c :: hd) :: tl

/-- Python `text.split('\n')`. -/
def splitLines (s : String) : List String :=
  (splitLinesAux s.data).map List.asString

/-- The type-dispatch part of the `for block in blocks` loop body
(converter.py lines 73-170): the lines appended for the block itself, before
any child handling.  Python's `elif` chain on `block_type == '...'` becomes a
match on the same string literals; a type matching no branch (including a
missing `type`) appends nothing. -/
def ownEntries (b : Block) (level : Nat) : List String :=
  let bc := b.content.getD BlockContent.empty
  if b.type = some "paragraph" then
    [rich_text_to_markdown (bc.rich_text.getD []), ""]
  else if b.type = some "heading_1" then
    ["# " ++ rich_text_to_markdown (bc.rich_text.getD []), ""]
  else if b.type = some "heading_2" then
    ["## " ++ rich_text_to_markdown (bc.rich_text.getD []), ""]
  else if b.type = some "heading_3" then
    ["### " ++ rich_text_to_markdown (bc.rich_text.getD []), ""]
  else if b.type = some "bulleted_list_item" then
    [indentStr level ++ "- " ++ rich_text_to_markdown (bc.rich_text.getD [])]
  else if b.type = some "numbered_list_item" then
    [indentStr level ++ "1. " ++ rich_text_to_markdown (bc.rich_text.getD [])]
  else if b.type = some "to_do" then
    let checkbox := if bc.checked.getD false then "[x]" else "[ ]"
    [indentStr level ++ "- " ++ checkbox ++ " " ++
      rich_text_to_markdown (bc.rich_text.getD [])]
  else if b.type = some "code" then
    ["```" ++ bc.language.getD "", rich_text_to_markdown (bc.rich_text.getD []),
      "```", ""]
  else if b.type = some "equation" then ["$$", bc.expression.getD "", "$$", ""]
  else if b.type = some "image" then
    let image_url :=
      if bc.type = some "file" then ((bc.file.getD ⟨none⟩).url).getD ""
      else if bc.type = some "external" then ((bc.external.getD ⟨none⟩).url).getD ""
      else ""
    ["![" ++ rich_text_to_markdown (bc.caption.getD []) ++ "](" ++ image_url ++ ")",
      ""]
  else if b.type = some "quote" then
    (splitLines (rich_text_to_markdown (bc.rich_text.getD []))).map
      (fun line => "> " ++ line) ++ [""]
  else if b.type = some "callout" then
    let icon := ((bc.icon.getD ⟨none⟩).emoji).getD ""
    -- Python `if icon:` - the empty string is falsy.
    let prefixStr := if icon = "" then "" else icon ++ " "
    ["> " ++ prefixStr ++ rich_text_to_markdown (bc.rich_text.getD []), ""]
  else if b.type = some "divider" then ["---", ""]
  else if b.type = some "toggle" then
    ["<details><summary>" ++ rich_text_to_markdown (bc.rich_text.getD []) ++
      "</summary>", ""]
  else if b.type = some "table" then []
  else if b.type = some "table_row" then
    let cells := bc.cells.getD []
    ["| " ++ String.intercalate " | " (cells.map rich_text_to_markdown) ++ " |"]
  else []

/-- The `table` child handling (converter.py lines 177-200): filter the
children to `table_row` blocks, render the first as the header, a `---`
separator sized by the header's cell count, then the remaining rows; a final
blank line is appended whether or not any rows were found. -/
def tableEntries (children : List Block) : List String :=
  let rowCells (rb : Block) : List (List RichText) :=
    ((rb.content.getD BlockContent.empty).cells).getD []
  match children.filter (fun c => c.type = some "table_row") with
  | [] => [""]
  | firstRow :: restRows =>
    let first_cells := rowCells firstRow
    let header := String.intercalate " | " (first_cells.map rich_text_to_markdown)
    let separator := String.intercalate " | " (List.replicate first_cells.length "---")
    ["| " ++ header ++ " |", "| " ++ separator ++ " |"] ++
      restRows.map (fun rb =>
        "| " ++ String.intercalate " | " ((rowCells rb).map rich_text_to_markdown)
          ++ " |") ++ [""]

/-- A child-fetch capability, `fetch_children(block_id)`: `Except` models a
callback that either returns the child list or raises (the raised exception
kept as a message string). -/
def FetchChildren : Type := String → Except String (List Block)

/-- The child-handling part of the loop body (converter.py lines 172-220),
parameterised by `recurse`, the recursive render of a child list at the next
level.  Returns `(entries, warnings)`: the extra lines appended for this
block and the `logger.warning` messages, or `none` when `recurse` ran out of
fuel.  A raised child fetch is caught: it only logs a warning, so for a
toggle the `</details>` close (inside the `try`) is skipped too.  When
`has_children` is truthy but no callback was supplied, the `elif` that closes
childless toggles is also skipped. -/
def childEntries (recurse : List Block → Nat → Option (List String × List String))
    (fetch : Option FetchChildren) (b : Block) (level : Nat) :
    Option (List String × List String) :=
  match fetch with
  | some fc =>
    if b.has_children then
      match fc b.id with
      | .error e => some ([], [e])
      | .ok children =>
        if b.type = some "table" then some (tableEntries children, [])
        else
          match recurse children (level + 1) with
          | none => none
          | some (childLines, childWarnings) =>
            let child_markdown := String.intercalate "\n" childLines
            -- Python `if child_markdown.strip():`
            let kept := if child_markdown.trim = "" then [] else [child_markdown]
            let close := if b.type = some "toggle" then ["</details>", ""] else []
            some (kept ++ close, childWarnings)
    else if b.type = some "toggle" then some (["</details>", ""], [])
    else some ([], [])
  | none =>
    if b.type = some "toggle" && !b.has_children then some (["</details>", ""], [])
    else some ([], [])

/-- One pass of the `for block in blocks` loop at a fixed recursion depth:
`recurse` renders child lists one level deeper.  Structural on the block
list. -/
def renderStep (recurse : List Block → Nat → Option (List String × List String))
    (fetch : Option FetchChildren) :
    List Block → Nat → Option (List String × List String)
  | [], _ => some ([], [])
  | b :: rest, level =>
    match childEntries recurse fetch b level, renderStep recurse fetch rest level with
    | some (ce, cw), some (re, rw) => some (ownEntries b level ++ ce ++ re, cw ++ rw)
    | _, _ => none

/-- Runs `blocks_to_markdown` as the list of lines it joins, with `fuel` bounding
the recursion depth into fetched children (the Python recursion has no such
bound; `none` only signals that `fuel` was smaller than the tree depth).
Returns the appended entries and the warnings logged for failed child
fetches. -/
def blocksToMarkdownEntries (fetch : Option FetchChildren) :
    Nat → List Block → Nat → Option (List String × List String)
  | 0, _, _ => none
  | fuel + 1, blocks, level =>
    renderStep (blocksToMarkdownEntries fetch fuel) fetch blocks level

/-- Embeds `blocks_to_markdown` (converter.py lines 56-222): the final
`'\n'.join(markdown)` over the accumulated entries, paired with the logged
warnings. -/
def blocks_to_markdown (fuel : Nat) (blocks : List Block)
    (fetch : Option FetchChildren) (level : Nat) : Option (String × List String) :=
  (blocksToMarkdownEntries fetch fuel blocks level).map
    (fun p => (String.intercalate "\n" p.1, p.2))

/-! ## Paginated block fetcher (`notion._fetch_all_blocks`) -/

/-- One page of a paginated children response, i.e. the fields
`_fetch_all_blocks` reads from `response.json()`: `results` (default `[]`),
`has_more` (default `False`) and `next_cursor` (absent or JSON null both
model as `none`).  The results are opaque to the fetcher, hence the type
parameter. -/
structure Page (α : Type) where
  results : List α
  has_more : Bool
  next_cursor : Option Nat
deriving Repr, DecidableEq

/-- The `while has_more` loop of `_fetch_all_blocks` (notion.py lines 66-85).
`server` abstracts `request_with_retry('get', url, params=params)` for the
fixed parent: it maps the `start_cursor` parameter (`none` when `params` is
empty, which Python produces for a `None` cursor) to the decoded response
page.  `acc` is `all_blocks`, `trace` records the cursor carried by each
request in order, and `fuel` bounds the number of iterations (`none` only
means the loop ran longer than `fuel`). -/
def fetchLoop (server : Option Nat → Page α) :
    Nat → Option Nat → List α → List (Option Nat) →
    Option (List α × List (Option Nat))
  | 0, _, _, _ => none
  | fuel + 1, cursor, acc, trace =>
    let page := server cursor
    let acc := acc ++ page.results
    let trace := trace ++ [cursor]
    if page.has_more then fetchLoop server fuel page.next_cursor acc trace
    else some (acc, trace)

/-- Embeds `_fetch_all_blocks` (notion.py lines 52-85): `all_blocks = []`,
`has_more = True`, `start_cursor = None`, then the loop; the first request
therefore carries no cursor. -/
def fetch_all_blocks (server : Option Nat → Page α) (fuel : Nat) :
    Option (List α × List (Option Nat)) :=
  fetchLoop server fuel none [] []

/-- A server answering from a fixed page list, where the cursor value `i` is
the opaque token naming page `i`: a cursorless request returns page `0`, and
a request carrying cursor `i` returns page `i`.  (Out-of-range cursors
return an empty final page; a server honouring the cursor contract never
issues them.) -/
def pageServer (pages : List (Page α)) : Option Nat → Page α
  | none => pages.getD 0 ⟨[], false, none⟩
  | some i => pages.getD i ⟨[], false, none⟩

/-- The cursor that reaches page `i` of `pageServer`: the first request
carries none, later requests carry the index. -/
def cursorFor (i : Nat) : Option Nat :=
  if i = 0 then none else some i

/-! ## Math detector (`notion._has_math_content`) -/

/-- Tests `content[i] == '$'` (false beyond the end of the string). -/
def isDollar (s : List Char) (i : Nat) : Bool :=
  s.get? i = some '$'

/-- Python's `\s` on the characters at hand: ASCII whitespace. -/
def pyIsSpace (c : Char) : Bool :=
  c = ' ' || c = '\t' || c = '\n' || c = '\r' || c = '\x0b' || c = '\x0c'

/-- The character at `i` exists and is whitespace. -/
def spaceAt (s : List Char) (i : Nat) : Bool :=
  match s.get? i with
  | some c => pyIsSpace c
  | none => false

/-- Holds when `re.search(r'\$\$.+?\$\$', content, re.DOTALL)` succeeds: some `$$` at
`i`, at least one character (any, including newlines), then `$$` at some
`j ≥ i + 3`. -/
def hasDisplayDollars (s : List Char) : Bool :=
  (List.range s.length).any fun i =>
    isDollar s i && isDollar s (i + 1) &&
      (List.range s.length).any fun j =>
        decide (i + 3 ≤ j) && isDollar s j && isDollar s (j + 1)

/-- The pattern `(?<!\$)\$(?!\s)(?!\$).+?(?<!\s)(?<!\$)\$(?!\$)` matches with
the opening `$` at `p` and the closing `$` at `q`: the opening is not
preceded (`(?<!\$)`) or followed (`(?!\$)`) by `$` and not followed by
whitespace (`(?!\s)`); at least one character lies between, none of them a
newline (`.` without `re.DOTALL`); the closing is not preceded by whitespace
or `$` and not followed by `$`. -/
def inlinePairAt (s : List Char) (p q : Nat) : Bool :=
  isDollar s p && isDollar s q && decide (p + 2 ≤ q) &&
    (decide (p = 0) || !isDollar s (p - 1)) &&
    !spaceAt s (p + 1) && !isDollar s (p + 1) &&
    (List.range' (p + 1) (q - p - 1)).all (fun m => !(s.get? m = some '\n')) &&
    !spaceAt s (q - 1) && !isDollar s (q - 1) && !isDollar s (q + 1)

/-- Holds when `re.search` for the inline pattern succeeds: some start and end position
form a match. -/
def hasInlineDollars (s : List Char) : Bool :=
  (List.range s.length).any fun p =>
    (List.range s.length).any fun q => inlinePairAt s p q

/-- Python `'\\[' in content`. -/
def hasBracketMath (s : List Char) : Bool :=
  (List.range s.length).any fun i =>
    s.get? i = some '\\' && s.get? (i + 1) = some '['

/-- Embeds `_has_math_content` (notion.py lines 88-114): display `$$...$$` first,
then the guarded inline `$...$`, then a bare `\[`. -/
def _has_math_content (content : String) : Bool :=
  hasDisplayDollars content.data || hasInlineDollars content.data ||
    hasBracketMath content.data

/-! ## Statements of the spec's claims

Definitions below restate parts of the specification in the spec's own
words, to be compared with the embedded code above. -/

/-- A transient failure as the spec classifies one: a timeout, a connection
error, or a server-error (5xx) HTTP response. -/
def TransientFailure : AttemptResult → Prop
  | .timeout => True
  | .connError => True
  | .httpError (some s) => 500 ≤ s
  | _ => False

/-- The exception a failed attempt records in `last_exception`. -/
def recordedError : AttemptResult → ReqError
  | .timeout => .timeout
  | .connError => .connError
  | .httpError st => .httpError st
  | .success _ => .fallback

/-- The line a toggle block opens with:
`<details><summary>{inline text}</summary>`. -/
def toggleSummaryLine (b : Block) : String :=
  "<details><summary>" ++
    rich_text_to_markdown ((b.content.getD BlockContent.empty).rich_text.getD [])
    ++ "</summary>"

/-- The spec's "raw code text": the claim asserts a code block's content is
emitted "not inline-rendered - annotation logic ... is bypassed", i.e. as
the bare concatenation of the runs' plain text. -/
def specRawCodeText (runs : List RichText) : String :=
  String.join (runs.map (fun t => t.plain_text.getD ""))

/-- A rich-text object with every key absent. -/
def blankRun : RichText := ⟨none, none, none, none, none⟩

/-- What each block type degrades to when its type-specific payload is
entirely missing: every field defaults to the empty string/list, so the
block renders as the type's minimal skeleton (for a childless block). -/
def minimalRendering (t : Option String) (level : Nat) : List String :=
  if t = some "paragraph" then ["", ""]
  else if t = some "heading_1" then ["# ", ""]
  else if t = some "heading_2" then ["## ", ""]
  else if t = some "heading_3" then ["### ", ""]
  else if t = some "bulleted_list_item" then [indentStr level ++ "- "]
  else if t = some "numbered_list_item" then [indentStr level ++ "1. "]
  else if t = some "to_do" then [indentStr level ++ "- [ ] "]
  else if t = some "code" then ["```", "", "```", ""]
  else if t = some "equation" then ["$$", "", "$$", ""]
  else if t = some "image" then ["![]()", ""]
  else if t = some "quote" then ["> ", ""]
  else if t = some "callout" then ["> ", ""]
  else if t = some "divider" then ["---", ""]
  else if t = some "toggle" then
    ["<details><summary></summary>", "", "</details>", ""]
  else if t = some "table" then []
  else if t = some "table_row" then ["|  |"]
  else []

/-- The claim's display-math condition: a `$$...$$` pair — `$$` twice with
at least one character between (newlines allowed). -/
def DisplayPairSpec (s : List Char) : Prop :=
  ∃ i j, s.get? i = some '$' ∧ s.get? (i + 1) = some '$' ∧
    s.get? j = some '$' ∧ s.get? (j + 1) = some '$' ∧ i + 3 ≤ j

/-- The claim's inline-math condition exactly as stated: an opening `$` at
`p` that is not immediately followed by whitespace and not part of a `$$`
pair (no `$` on either side of it), a closing `$` at `q` that is not
immediately preceded by whitespace and not part of a `$$` pair, and at least
one character between them.  The claim puts no restriction on the characters
between the two. -/
def InlinePairSpecStated (s : List Char) (p q : Nat) : Prop :=
  s.get? p = some '$' ∧ s.get? q = some '$' ∧ p + 2 ≤ q ∧
    (p = 0 ∨ s.get? (p - 1) ≠ some '$') ∧
    s.get? (p + 1) ≠ some '$' ∧ spaceAt s (p + 1) = false ∧
    spaceAt s (q - 1) = false ∧ s.get? (q - 1) ≠ some '$' ∧
    s.get? (q + 1) ≠ some '$'

/-- The claim's `\[` condition: the two-character sequence anywhere. -/
def BracketSpec (s : List Char) : Prop :=
  ∃ i, s.get? i = some '\\' ∧ s.get? (i + 1) = some '['

/-- Claim C9's characterisation of `_has_math_content`, as stated. -/
def MathContentSpecStated (s : List Char) : Prop :=
  DisplayPairSpec s ∨ (∃ p q, InlinePairSpecStated s p q) ∨ BracketSpec s

/-- The inline condition the code actually implements: as stated, plus the
requirement that no newline lies strictly between the opening and closing
`$` (the regex's `.` does not match a newline). -/
def InlinePairSpecAmended (s : List Char) (p q : Nat) : Prop :=
  InlinePairSpecStated s p q ∧ ∀ m, p < m → m < q → s.get? m ≠ some '\n'

/-- Claim C9 amended: the inline disjunct additionally requires the pair to
lie within a single line. -/
def MathContentSpecAmended (s : List Char) : Prop :=
  DisplayPairSpec s ∨ (∃ p q, InlinePairSpecAmended s p q) ∨ BracketSpec s

/-! ## Concrete fixtures used by counterexamples and witnesses -/

/-- A plain-text run. -/
def textRun (s : String) : RichText :=
  ⟨some "text", none, some s, some Annotations.empty, none⟩

/-- A bold run. -/
def boldRun (s : String) : RichText :=
  ⟨some "text", none, some s, some ⟨true, false, false, false⟩, none⟩

/-- A toggle block with summary `Info` that declares children. -/
def toggleInfo : Block :=
  ⟨"toggle-1", some "toggle", true,
    some { BlockContent.empty with rich_text := some [textRun "Info"] }⟩

/-- A toggle block with summary `Info` and no children. -/
def toggleInfoNoChild : Block :=
  ⟨"toggle-2", some "toggle", false,
    some { BlockContent.empty with rich_text := some [textRun "Info"] }⟩

/-- A `code` block whose single run carries a bold annotation. -/
def codeBoldBlock : Block :=
  ⟨"code-1", some "code", false,
    some { BlockContent.empty with
           rich_text := some [boldRun "x"]
           language := some "python" }⟩

/-- A paragraph block reading `hello`. -/
def paragraphHello : Block :=
  ⟨"para-1", some "paragraph", false,
    some { BlockContent.empty with rich_text := some [textRun "hello"] }⟩

/-- Three pages of two, two and one block, chained by cursors `1` and `2`. -/
def threePages : List (Page Nat) :=
  [⟨[1, 2], true, some 1⟩, ⟨[3, 4], true, some 2⟩, ⟨[5], false, none⟩]

/-! ## Theorems -/

/-- Claim C6: `rich_text_to_markdown` is a monoid homomorphism from run
sequences to strings: rendering the concatenation of two sequences is the
concatenation of their renderings, and the empty sequence renders to the
empty string. -/
theorem C6_rich_text_monoid_hom :
    (∀ A B : List RichText,
      rich_text_to_markdown (A ++ B) =
        rich_text_to_markdown A ++ rich_text_to_markdown B) ∧
    rich_text_to_markdown [] = "" := by
  refine ⟨fun A B => ?_, rfl⟩
  induction A with
  | nil => simp [rich_text_to_markdown, String.empty_append]
  | cons t rest ih =>
    simp [rich_text_to_markdown, ih, String.append_assoc]

/-- A transient attempt makes `retryLoop` record the failure, sleep
`RETRY_BACKOFF ^ attempt`, and continue with the next attempt. -/
theorem retryLoop_transient_step (oracle : Nat → AttemptResult) (n k : Nat)
    (lastExc : Option ReqError) (sleeps : List Nat)
    (h : TransientFailure (oracle k)) :
    retryLoop oracle (n + 1) k lastExc sleeps =
      retryLoop oracle n (k + 1) (some (recordedError (oracle k)))
        (sleeps ++ [RETRY_BACKOFF ^ k]) := by
  cases ho : oracle k with
  | success r => rw [ho] at h; exact absurd h (by simp [TransientFailure])
  | timeout => simp [retryLoop, ho, recordedError]
  | connError => simp [retryLoop, ho, recordedError]
  | httpError st =>
    rw [ho] at h
    cases st with
    | none => exact absurd h (by simp [TransientFailure])
    | some s =>
      have hs : ¬(400 ≤ s ∧ s < 500) := by
        simp only [TransientFailure] at h; omega
      simp [retryLoop, ho, recordedError, if_neg hs]

/-- Under `TransientFailure` the recorded error is a real failure, never the
defensive fallback. -/
theorem recordedError_ne_fallback (r : AttemptResult)
    (h : TransientFailure r) : recordedError r ≠ .fallback := by
  cases r with
  | success v => exact absurd h (by simp [TransientFailure])
  | timeout => simp [recordedError]
  | connError => simp [recordedError]
  | httpError st => simp [recordedError]

/-- Claim C4 counterexample: against a client that always times out, the
code performs `MAX_RETRIES` sleeps — one after every failed attempt,
including the last one, after which no further attempt follows — so the
waits do not all "occur between consecutive attempts" (that would allow at
most `MAX_RETRIES - 1` of them). -/
theorem C4_counterexample :
    request_with_retry (fun _ => AttemptResult.timeout) =
      ⟨.error .timeout, [1, 2, 4], 3⟩ ∧
    ¬ (([1, 2, 4] : List Nat).length = 3 - 1) :=
  ⟨rfl, by decide⟩

/-- Claim C4 (amended): when every attempt fails transiently (timeout,
connection error, or 5xx), `request_with_retry` makes exactly `MAX_RETRIES`
attempts, sleeps `RETRY_BACKOFF ^ attempt` seconds after every failed
attempt (the first `MAX_RETRIES - 1` of these waits fall between consecutive
attempts; one more follows the final attempt), the waits are strictly
increasing, and after exhaustion it raises the last observed failure — never
the defensive fallback, which is reserved for the case where no failure was
recorded. -/
theorem C4_retry_exhaustion (oracle : Nat → AttemptResult)
    (h : ∀ i, i < MAX_RETRIES → TransientFailure (oracle i)) :
    (request_with_retry oracle).attempts = MAX_RETRIES ∧
    (request_with_retry oracle).sleeps =
      (List.range MAX_RETRIES).map (fun a => RETRY_BACKOFF ^ a) ∧
    List.Chain' (· < ·) (request_with_retry oracle).sleeps ∧
    (request_with_retry oracle).result =
      .error (recordedError (oracle (MAX_RETRIES - 1))) ∧
    (request_with_retry oracle).result ≠ .error .fallback := by
  have h0 := h 0 (by norm_num [MAX_RETRIES])
  have h1 := h 1 (by norm_num [MAX_RETRIES])
  have h2 := h 2 (by norm_num [MAX_RETRIES])
  have key : request_with_retry oracle =
      ⟨.error (recordedError (oracle 2)), [1, 2, 4], 3⟩ := by
    show retryLoop oracle 3 0 none [] = _
    rw [retryLoop_transient_step oracle 2 0 none [] h0,
      retryLoop_transient_step oracle 1 1 _ _ h1,
      retryLoop_transient_step oracle 0 2 _ _ h2]
    simp [retryLoop, RETRY_BACKOFF]
  rw [show MAX_RETRIES = 3 from rfl, key]
  refine ⟨rfl, rfl, ?_, rfl, ?_⟩
  · show List.Chain' (· < ·) ([1, 2, 4] : List Nat)
    refine List.chain'_cons.mpr ⟨by norm_num, List.chain'_cons.mpr ⟨by norm_num, ?_⟩⟩
    exact List.chain'_singleton 4
  · simp only [Except.error.injEq, ne_eq]
    exact recordedError_ne_fallback _ h2

/-- Claim C4 witness: the amended theorem applied to an always-disconnecting
client. -/
theorem C4_retry_exhaustion_witness :
    (request_with_retry (fun _ => AttemptResult.connError)).attempts =
      MAX_RETRIES ∧
    (request_with_retry (fun _ => AttemptResult.connError)).sleeps =
      (List.range MAX_RETRIES).map (fun a => RETRY_BACKOFF ^ a) ∧
    List.Chain' (· < ·)
      (request_with_retry (fun _ => AttemptResult.connError)).sleeps ∧
    (request_with_retry (fun _ => AttemptResult.connError)).result =
      .error (recordedError ((fun _ => AttemptResult.connError)
        (MAX_RETRIES - 1))) ∧
    (request_with_retry (fun _ => AttemptResult.connError)).result ≠
      .error .fallback :=
  C4_retry_exhaustion (fun _ => AttemptResult.connError)
    (fun _ _ => by simp [TransientFailure])

/-- Claim C5: a first response that is an HTTP error with a 4xx status makes
`request_with_retry` raise that error after exactly one attempt, with no
sleep. -/
theorem C5_no_retry_on_4xx (oracle : Nat → AttemptResult) (s : Nat)
    (h0 : oracle 0 = .httpError (some s)) (h4 : 400 ≤ s) (h5 : s < 500) :
    request_with_retry oracle = ⟨.error (.httpError (some s)), [], 1⟩ := by
  show retryLoop oracle 3 0 none [] = _
  simp [retryLoop, h0, if_pos (And.intro h4 h5)]

/-- Claim C5 witness: a single simulated 404. -/
theorem C5_no_retry_on_4xx_witness :
    request_with_retry (fun _ => AttemptResult.httpError (some 404)) =
      ⟨.error (.httpError (some 404)), [], 1⟩ :=
  C5_no_retry_on_4xx (fun _ => AttemptResult.httpError (some 404)) 404
    rfl (by norm_num) (by norm_num)

/-- The server `pageServer` answers the cursor that names page `j` with page `j`. -/
theorem pageServer_cursorFor {α : Type} (pages : List (Page α)) (j : Nat) :
    pageServer pages (cursorFor j) = pages.getD j ⟨[], false, none⟩ := by
  unfold cursorFor
  by_cases hj : j = 0
  · subst hj; simp [pageServer]
  · rw [if_neg hj]; rfl

/-- The pagination loop, started at page `j` of a page list honouring the
cursor contract, accumulates exactly the remaining pages' results in order
and issues exactly one request per remaining page, carrying `cursorFor`
of each page. -/
theorem fetchLoop_pages {α : Type} (pages : List (Page α))
    (hmid : ∀ i, i + 1 < pages.length →
      (pages.getD i ⟨[], false, none⟩).has_more = true ∧
      (pages.getD i ⟨[], false, none⟩).next_cursor = some (i + 1))
    (hlast : (pages.getD (pages.length - 1) ⟨[], false, none⟩).has_more = false) :
    ∀ (fuel j : Nat) (acc : List α) (trace : List (Option Nat)),
      j < pages.length → pages.length - j ≤ fuel →
      fetchLoop (pageServer pages) fuel (cursorFor j) acc trace =
        some (acc ++ ((pages.drop j).map Page.results).join,
          trace ++ (List.range' j (pages.length - j)).map cursorFor) := by
  intro fuel
  induction fuel with
  | zero => intro j acc trace hj hf; omega
  | succ f ih =>
    intro j acc trace hj hf
    have hdrop : pages.drop j = pages.getD j ⟨[], false, none⟩ :: pages.drop (j + 1) := by
      rw [List.drop_eq_getElem_cons hj, List.getD_eq_getElem _ _ hj]
    simp only [fetchLoop, pageServer_cursorFor]
    by_cases hend : j + 1 = pages.length
    · have hmore : (pages.getD j ⟨[], false, none⟩).has_more = false := by
        have : pages.length - 1 = j := by omega
        rwa [this] at hlast
      rw [hmore]
      simp only [if_neg (Bool.false_ne_true)]
      have h1 : pages.drop (j + 1) = [] := List.drop_eq_nil_of_le (by omega)
      have h2 : pages.length - j = 1 := by omega
      rw [hdrop, h1, h2]
      simp
    · have hj1 : j + 1 < pages.length := by omega
      obtain ⟨hmore, hnext⟩ := hmid j hj1
      rw [hmore]
      simp only [if_pos rfl, hnext]
      have hcur : some (j + 1) = cursorFor (j + 1) := by simp [cursorFor]
      rw [hcur, ih (j + 1) _ _ hj1 (by omega)]
      have hn : pages.length - j = (pages.length - (j + 1)) + 1 := by omega
      rw [hdrop, hn, List.range'_succ]
      simp [List.join_cons]

/-- Claim C1: against a server honouring the cursor contract (each non-final
page has `has_more` and chains by `next_cursor` to the next page, the final
page has `has_more = false`), `_fetch_all_blocks` returns exactly the
concatenation of all pages' results in server order, issuing one request per
page: the first request cursorless and each later request carrying the
previous response's `next_cursor`, stopping at the first `has_more = false`
response. -/
theorem C1_pagination_complete {α : Type} (pages : List (Page α)) (fuel : Nat)
    (hne : pages ≠ [])
    (hmid : ∀ i, i + 1 < pages.length →
      (pages.getD i ⟨[], false, none⟩).has_more = true ∧
      (pages.getD i ⟨[], false, none⟩).next_cursor = some (i + 1))
    (hlast : (pages.getD (pages.length - 1) ⟨[], false, none⟩).has_more = false)
    (hf : pages.length ≤ fuel) :
    fetch_all_blocks (pageServer pages) fuel =
      some ((pages.map Page.results).join,
        (List.range pages.length).map cursorFor) := by
  have h0 : 0 < pages.length := List.length_pos.mpr hne
  have h := fetchLoop_pages pages hmid hlast fuel 0 [] [] h0 (by omega)
  rw [show cursorFor 0 = none from rfl] at h
  simp only [List.drop_zero, Nat.sub_zero, List.nil_append] at h
  rw [fetch_all_blocks, List.range_eq_range']
  exact h

/-- Claim C1 witness: three pages of sizes 2, 2 and 1 chained by cursors. -/
theorem C1_pagination_complete_witness :
    threePages ≠ [] ∧ threePages.length ≤ 3 ∧
    fetch_all_blocks (pageServer threePages) 3 =
      some ((threePages.map Page.results).join,
        (List.range threePages.length).map cursorFor) := by
  refine ⟨by decide, by decide, ?_⟩
  refine C1_pagination_complete threePages 3 (by decide) ?_ (by decide) (by decide)
  intro i hi
  have hl : threePages.length = 3 := rfl
  rw [hl] at hi
  match i with
  | 0 => exact ⟨rfl, rfl⟩
  | 1 => exact ⟨rfl, rfl⟩
  | n + 2 => omega

/-- On a page answering `has_more = true` with a null cursor, every fuel
bound runs out: the loop never terminates. -/
theorem fetchLoop_null_cursor_diverges {α : Type} (fuel : Nat) :
    ∀ (c : Option Nat) (acc : List α) (trace : List (Option Nat)),
      fetchLoop (fun _ => (⟨[], true, none⟩ : Page α)) fuel c acc trace = none := by
  induction fuel with
  | zero => intro c acc trace; rfl
  | succ f ih =>
    intro c acc trace
    simp only [fetchLoop, if_pos rfl]
    exact ih none _ _

/-- Claim C10: under the cursor contract the fetch loop of
`_fetch_all_blocks` terminates (fuel equal to the page count suffices); and
the contract is necessary: a response with `has_more = true` and a null
`next_cursor` makes the next iteration re-issue the cursorless first request
rather than stop, so against a server that always answers that way the loop
never terminates under any fuel bound. -/
theorem C10_fetch_termination {α : Type} (pages : List (Page α))
    (hne : pages ≠ [])
    (hmid : ∀ i, i + 1 < pages.length →
      (pages.getD i ⟨[], false, none⟩).has_more = true ∧
      (pages.getD i ⟨[], false, none⟩).next_cursor = some (i + 1))
    (hlast : (pages.getD (pages.length - 1) ⟨[], false, none⟩).has_more = false) :
    (∃ r, fetch_all_blocks (pageServer pages) pages.length = some r) ∧
    (∀ (server : Option Nat → Page α) (fuel : Nat) (c : Option Nat)
        (acc : List α) (trace : List (Option Nat)),
      (server c).has_more = true → (server c).next_cursor = none →
      fetchLoop server (fuel + 1) c acc trace =
        fetchLoop server fuel none (acc ++ (server c).results) (trace ++ [c])) ∧
    (∀ fuel : Nat,
      fetch_all_blocks (fun _ => (⟨[], true, none⟩ : Page α)) fuel = none) := by
  refine ⟨?_, ?_, ?_⟩
  · have h0 : 0 < pages.length := List.length_pos.mpr hne
    have h := fetchLoop_pages pages hmid hlast pages.length 0 [] [] h0 (by omega)
    rw [show cursorFor 0 = none from rfl] at h
    exact ⟨_, h⟩
  · intro server fuel c acc trace hmore hnull
    simp [fetchLoop, hmore, hnull]
  · intro fuel
    exact fetchLoop_null_cursor_diverges fuel none [] []

/-- Claim C10 witness: the contract hypotheses hold of the three-page
server, and the termination and divergence conclusions follow. -/
theorem C10_fetch_termination_witness :
    threePages ≠ [] ∧
    ((∃ r, fetch_all_blocks (pageServer threePages) threePages.length = some r) ∧
    (∀ (server : Option Nat → Page Nat) (fuel : Nat) (c : Option Nat)
        (acc : List Nat) (trace : List (Option Nat)),
      (server c).has_more = true → (server c).next_cursor = none →
      fetchLoop server (fuel + 1) c acc trace =
        fetchLoop server fuel none (acc ++ (server c).results) (trace ++ [c])) ∧
    (∀ fuel : Nat,
      fetch_all_blocks (fun _ => (⟨[], true, none⟩ : Page Nat)) fuel = none)) := by
  refine ⟨by decide, ?_⟩
  refine C10_fetch_termination threePages (by decide) ?_ (by decide)
  intro i hi
  have hl : threePages.length = 3 := rfl
  rw [hl] at hi
  match i with
  | 0 => exact ⟨rfl, rfl⟩
  | 1 => exact ⟨rfl, rfl⟩
  | n + 2 => omega

/-! ### Unfolding lemmas for the block renderer -/

/-- Unrolls `rich_text_to_markdown` one run. -/
theorem rich_text_cons (t : RichText) (rest : List RichText) :
    rich_text_to_markdown (t :: rest) =
      richTextRun t ++ rich_text_to_markdown rest := rfl

/-- Rendering no blocks appends nothing. -/
theorem entries_nil (fetch : Option FetchChildren) (fuel level : Nat) :
    blocksToMarkdownEntries fetch (fuel + 1) [] level = some ([], []) := rfl

/-- One step of the block loop: the head block's own entries, its child
entries, then the rest of the list. -/
theorem entries_cons (fetch : Option FetchChildren) (fuel : Nat)
    (b : Block) (rest : List Block) (level : Nat) :
    blocksToMarkdownEntries fetch (fuel + 1) (b :: rest) level =
      match childEntries (blocksToMarkdownEntries fetch fuel) fetch b level,
        blocksToMarkdownEntries fetch (fuel + 1) rest level with
      | some (ce, cw), some (re, rw) =>
        some (ownEntries b level ++ ce ++ re, cw ++ rw)
      | _, _ => none := rfl

/-- Rendering a single block, given its child handling. -/
theorem entries_single (fetch : Option FetchChildren) (fuel : Nat)
    (b : Block) (level : Nat) (ce cw : List String)
    (h : childEntries (blocksToMarkdownEntries fetch fuel) fetch b level =
      some (ce, cw)) :
    blocksToMarkdownEntries fetch (fuel + 1) [b] level =
      some (ownEntries b level ++ ce, cw) := by
  rw [entries_cons, h, entries_nil]
  simp

/-- A raised child fetch is caught: no entries, one warning. -/
theorem childEntries_fetch_error
    (recurse : List Block → Nat → Option (List String × List String))
    (fc : FetchChildren) (b : Block) (level : Nat) (e : String)
    (hb : b.has_children = true) (he : fc b.id = .error e) :
    childEntries recurse (some fc) b level = some ([], [e]) := by
  simp [childEntries, hb, he]

/-- A childless block appends no child entries — except a childless toggle,
which is closed immediately. -/
theorem childEntries_childless
    (recurse : List Block → Nat → Option (List String × List String))
    (fc : FetchChildren) (b : Block) (level : Nat)
    (hb : b.has_children = false) :
    childEntries recurse (some fc) b level =
      (if b.type = some "toggle" then some (["</details>", ""], [])
       else some ([], [])) := by
  simp [childEntries, hb]

/-- A successful child fetch of a non-table block: the children's joined
markdown is kept when non-blank, and a toggle is closed after it. -/
theorem childEntries_ok_nontable
    (recurse : List Block → Nat → Option (List String × List String))
    (fc : FetchChildren) (b : Block) (level : Nat) (children : List Block)
    (es ws : List String)
    (hb : b.has_children = true) (hok : fc b.id = .ok children)
    (ht : b.type ≠ some "table")
    (hrec : recurse children (level + 1) = some (es, ws)) :
    childEntries recurse (some fc) b level =
      some ((if (String.intercalate "\n" es).trim = "" then []
             else [String.intercalate "\n" es]) ++
        (if b.type = some "toggle" then ["</details>", ""] else []), ws) := by
  simp [childEntries, hb, hok, ht, hrec]

/-- Without a fetch capability only the childless-toggle close fires; a
block with `has_children = true` gets no child handling at all. -/
theorem childEntries_nofetch
    (recurse : List Block → Nat → Option (List String × List String))
    (b : Block) (level : Nat) :
    childEntries recurse none b level =
      (if b.type = some "toggle" && !b.has_children
       then some (["</details>", ""], []) else some ([], [])) := rfl

/-- The own entries of a toggle block: the summary line and a blank. -/
theorem ownEntries_toggle (i : String) (hc : Bool) (c : Option BlockContent)
    (level : Nat) :
    ownEntries ⟨i, some "toggle", hc, c⟩ level =
      [toggleSummaryLine ⟨i, some "toggle", hc, c⟩, ""] := rfl

/-- The own entries of a code block: fence with language tag, the
inline-rendered content, closing fence, blank. -/
theorem ownEntries_code (b : Block) (level : Nat)
    (ht : b.type = some "code") :
    ownEntries b level =
      ["```" ++ (b.content.getD BlockContent.empty).language.getD "",
       rich_text_to_markdown ((b.content.getD BlockContent.empty).rich_text.getD []),
       "```", ""] := by
  obtain ⟨bi, bty, bhc, bc⟩ := b
  simp only [Block.type] at ht
  subst ht
  rfl

set_option maxHeartbeats 1000000 in
/-- A block with a missing payload renders (own entries plus toggle close)
as the minimal skeleton of its type. -/
theorem ownEntries_none_content (i : String) (t : Option String) (level : Nat) :
    ownEntries ⟨i, t, false, none⟩ level ++
      (if t = some "toggle" then ["</details>", ""] else []) =
      minimalRendering t level := by
  by_cases h1 : t = some "paragraph"
  · subst h1; rfl
  by_cases h2 : t = some "heading_1"
  · subst h2; rfl
  by_cases h3 : t = some "heading_2"
  · subst h3; rfl
  by_cases h4 : t = some "heading_3"
  · subst h4; rfl
  by_cases h5 : t = some "bulleted_list_item"
  · subst h5
    simp [ownEntries, minimalRendering, String.append_assoc,
      show rich_text_to_markdown (BlockContent.empty.rich_text.getD []) = ""
        from rfl]
  by_cases h6 : t = some "numbered_list_item"
  · subst h6
    simp [ownEntries, minimalRendering, String.append_assoc,
      show rich_text_to_markdown (BlockContent.empty.rich_text.getD []) = ""
        from rfl]
  by_cases h7 : t = some "to_do"
  · subst h7
    simp [ownEntries, minimalRendering, String.append_assoc,
      show rich_text_to_markdown (BlockContent.empty.rich_text.getD []) = ""
        from rfl,
      show BlockContent.empty.checked.getD false = false from rfl]
  by_cases h8 : t = some "code"
  · subst h8; rfl
  by_cases h9 : t = some "equation"
  · subst h9; rfl
  by_cases h10 : t = some "image"
  · subst h10; rfl
  by_cases h11 : t = some "quote"
  · subst h11; rfl
  by_cases h12 : t = some "callout"
  · subst h12; rfl
  by_cases h13 : t = some "divider"
  · subst h13; rfl
  by_cases h14 : t = some "toggle"
  · subst h14; rfl
  by_cases h15 : t = some "table"
  · subst h15; rfl
  by_cases h16 : t = some "table_row"
  · subst h16; rfl
  simp [ownEntries, minimalRendering, h1, h2, h3, h4, h5, h6, h7, h8, h9,
    h10, h11, h12, h13, h14, h15, h16]

/-- Claim C2 counterexample: a toggle block that declares children, whose
child fetch raises, renders its opening line but never its `</details>`
close — the `markdown.append('</details>')` sits inside the `try` block,
after the point where the exception is raised.  The collapsible is therefore
not always explicitly closed. -/
theorem C2_counterexample :
    blocks_to_markdown 1 [toggleInfo] (some fun _ => .error "fetch failed") 0 =
      some ("<details><summary>Info</summary>\n", ["fetch failed"]) ∧
    ¬ ("</details>".data <:+: "<details><summary>Info</summary>\n".data) :=
  ⟨rfl, by decide⟩

/-- Claim C2 (amended): a toggle block is explicitly closed with
`</details>` when it declares no children (immediately after the
`<details><summary>...</summary>` opening and its blank line) and when its
child fetch succeeds (after the children's rendered output); when the block
declares children but the fetch capability is absent or the fetch raises,
the toggle is left unclosed. -/
theorem C2_toggle_closed (b : Block) (fc : FetchChildren) (fuel level : Nat)
    (ht : b.type = some "toggle") :
    (b.has_children = false →
      blocksToMarkdownEntries (some fc) (fuel + 1) [b] level =
        some ([toggleSummaryLine b, "", "</details>", ""], [])) ∧
    (∀ (children : List Block) (es ws : List String),
      b.has_children = true → fc b.id = .ok children →
      blocksToMarkdownEntries (some fc) fuel children (level + 1) = some (es, ws) →
      blocksToMarkdownEntries (some fc) (fuel + 1) [b] level =
        some ([toggleSummaryLine b, ""] ++
          (if (String.intercalate "\n" es).trim = "" then []
           else [String.intercalate "\n" es]) ++ ["</details>", ""], ws)) := by
  obtain ⟨bi, bty, bhc, bc⟩ := b
  simp only [Block.type] at ht
  subst ht
  constructor
  · intro h
    simp only [Block.has_children] at h
    subst h
    rw [entries_single _ fuel _ level ["</details>", ""] []
      (by rw [childEntries_childless _ fc _ level rfl]; simp),
      ownEntries_toggle]
    simp
  · intro children es ws h hok hrec
    simp only [Block.has_children] at h
    subst h
    rw [entries_single _ fuel _ level _ _
      (childEntries_ok_nontable _ fc _ level children es ws rfl hok
        (by simp) hrec),
      ownEntries_toggle]
    simp

/-- Claim C2 witness: the amended theorem applied to the childless `Info`
toggle with a trivial fetch capability. -/
theorem C2_toggle_closed_witness :
    toggleInfoNoChild.type = some "toggle" ∧
    ((toggleInfoNoChild.has_children = false →
      blocksToMarkdownEntries (some fun _ => Except.ok []) (0 + 1)
          [toggleInfoNoChild] 0 =
        some ([toggleSummaryLine toggleInfoNoChild, "", "</details>", ""], [])) ∧
    (∀ (children : List Block) (es ws : List String),
      toggleInfoNoChild.has_children = true →
      (fun _ => (Except.ok [] : Except String (List Block)))
        toggleInfoNoChild.id = Except.ok children →
      blocksToMarkdownEntries (some fun _ => Except.ok []) 0 children (0 + 1) =
        some (es, ws) →
      blocksToMarkdownEntries (some fun _ => Except.ok []) (0 + 1)
          [toggleInfoNoChild] 0 =
        some ([toggleSummaryLine toggleInfoNoChild, ""] ++
          (if (String.intercalate "\n" es).trim = "" then []
           else [String.intercalate "\n" es]) ++ ["</details>", ""], ws))) :=
  ⟨rfl, C2_toggle_closed toggleInfoNoChild (fun _ => Except.ok []) 0 0 rfl⟩

/-- Claim C3 counterexample: the code block's content is not emitted raw —
it goes through `rich_text_to_markdown`, so a bold annotation on a code
block's run is wrapped as `**x**` in the fenced block, where the claim's
"raw code text" would be `x`. -/
theorem C3_counterexample :
    blocks_to_markdown 1 [codeBoldBlock] none 0 =
      some ("```python\n**x**\n```\n", []) ∧
    specRawCodeText [boldRun "x"] = "x" ∧
    rich_text_to_markdown [boldRun "x"] = "**x**" ∧
    ("**x**" : String) ≠ "x" :=
  ⟨rfl, rfl, rfl, by decide⟩

/-- Claim C3 (amended): a childless code block renders as an opening fence
tagged with the block's language, then the content rendered through the
inline renderer `rich_text_to_markdown` (annotations in the rich text, if
any, are applied — the content is not emitted raw), then a closing fence and
a blank line. -/
theorem C3_code_fenced (b : Block) (fetch : Option FetchChildren)
    (fuel level : Nat) (ht : b.type = some "code")
    (hc : b.has_children = false) :
    blocksToMarkdownEntries fetch (fuel + 1) [b] level =
      some (["```" ++ (b.content.getD BlockContent.empty).language.getD "",
        rich_text_to_markdown ((b.content.getD BlockContent.empty).rich_text.getD []),
        "```", ""], []) ∧
    blocks_to_markdown (fuel + 1) [b] fetch level =
      some ("```" ++ (b.content.getD BlockContent.empty).language.getD "" ++
        "\n" ++
        rich_text_to_markdown ((b.content.getD BlockContent.empty).rich_text.getD [])
        ++ "\n```\n", []) := by
  have hchild : childEntries (blocksToMarkdownEntries fetch fuel) fetch
      b level = some ([], []) := by
    cases fetch with
    | none => rw [childEntries_nofetch]; simp [ht, hc]
    | some fc => rw [childEntries_childless _ fc _ level hc]; simp [ht]
  have h1 := entries_single fetch fuel b level [] [] hchild
  rw [ownEntries_code b level ht, List.append_nil] at h1
  refine ⟨h1, ?_⟩
  rw [blocks_to_markdown, h1, Option.map_some']
  show some (String.join
    ["```" ++ (b.content.getD BlockContent.empty).language.getD "", "\n",
     rich_text_to_markdown ((b.content.getD BlockContent.empty).rich_text.getD []),
     "\n", "```", "\n", ""], ([] : List String)) = _
  simp [String.join, String.append_assoc]

/-- Claim C3 witness: the amended theorem applied to the bold-`x` python
code block. -/
theorem C3_code_fenced_witness :
    codeBoldBlock.type = some "code" ∧ codeBoldBlock.has_children = false ∧
    (blocksToMarkdownEntries none (0 + 1) [codeBoldBlock] 0 =
      some (["```" ++
          (codeBoldBlock.content.getD BlockContent.empty).language.getD "",
        rich_text_to_markdown
          ((codeBoldBlock.content.getD BlockContent.empty).rich_text.getD []),
        "```", ""], []) ∧
    blocks_to_markdown (0 + 1) [codeBoldBlock] none 0 =
      some ("```" ++
        (codeBoldBlock.content.getD BlockContent.empty).language.getD "" ++
        "\n" ++
        rich_text_to_markdown
          ((codeBoldBlock.content.getD BlockContent.empty).rich_text.getD [])
        ++ "\n```\n", [])) :=
  ⟨rfl, rfl, C3_code_fenced codeBoldBlock none 0 0 rfl rfl⟩

/-- Claim C7: when a block's child fetch raises, the conversion neither
aborts nor loses the block's own rendered content: the exception is caught,
a warning carrying it is recorded, no recursion into the subtree happens,
and the remaining sibling blocks render exactly as they would alone. -/
theorem C7_child_fetch_failure (b : Block) (rest : List Block)
    (fc : FetchChildren) (e : String) (fuel level : Nat)
    (hb : b.has_children = true) (he : fc b.id = .error e)
    (res ws : List String)
    (hrest : blocksToMarkdownEntries (some fc) (fuel + 1) rest level =
      some (res, ws)) :
    blocksToMarkdownEntries (some fc) (fuel + 1) (b :: rest) level =
      some (ownEntries b level ++ res, e :: ws) := by
  rw [entries_cons, childEntries_fetch_error _ fc b level e hb he, hrest]
  simp

/-- Claim C7 witness: a toggle whose fetch raises `boom`, followed by a
paragraph sibling that still renders. -/
theorem C7_child_fetch_failure_witness :
    toggleInfo.has_children = true ∧
    (fun _ => (Except.error "boom" : Except String (List Block)))
      toggleInfo.id = Except.error "boom" ∧
    blocksToMarkdownEntries (some fun _ => Except.error "boom") (0 + 1)
      [paragraphHello] 0 = some (["hello", ""], []) ∧
    blocksToMarkdownEntries (some fun _ => Except.error "boom") (0 + 1)
      (toggleInfo :: [paragraphHello]) 0 =
      some (ownEntries toggleInfo 0 ++ ["hello", ""], "boom" :: []) :=
  ⟨rfl, rfl, rfl,
    C7_child_fetch_failure toggleInfo [paragraphHello]
      (fun _ => Except.error "boom") "boom" 0 0 rfl rfl ["hello", ""] [] rfl⟩

/-- Claim C8: the conversion is total on arbitrarily missing payloads —
`.get` defaults stand in for every absent key, so nothing raises: a run with
every key absent renders as the empty string, a block whose type-specific
payload is missing renders as its type's minimal skeleton (empty for unknown
or absent types), and a present-but-empty payload behaves exactly like a
missing one. -/
theorem C8_missing_payload_defaults (i : String) (t : Option String)
    (fetch : Option FetchChildren) (fuel level n : Nat) :
    rich_text_to_markdown (List.replicate n blankRun) = "" ∧
    blocksToMarkdownEntries fetch (fuel + 1) [⟨i, t, false, none⟩] level =
      some (minimalRendering t level, []) ∧
    blocksToMarkdownEntries fetch (fuel + 1)
        [⟨i, t, false, some BlockContent.empty⟩] level =
      blocksToMarkdownEntries fetch (fuel + 1) [⟨i, t, false, none⟩] level := by
  refine ⟨?_, ?_, rfl⟩
  · induction n with
    | zero => rfl
    | succ m ih =>
      rw [List.replicate_succ, rich_text_cons,
        show richTextRun blankRun = "" from rfl, ih]
      rfl
  · have hchild : childEntries (blocksToMarkdownEntries fetch fuel) fetch
        ⟨i, t, false, none⟩ level =
        some ((if t = some "toggle" then ["</details>", ""] else []), []) := by
      cases fetch with
      | none =>
        rw [childEntries_nofetch]
        by_cases htog : t = some "toggle" <;> simp [htog]
      | some fc =>
        rw [childEntries_childless _ fc _ level rfl]
        by_cases htog : t = some "toggle" <;> simp [htog]
    rw [entries_single fetch fuel _ level _ _ hchild, ownEntries_none_content]

/-! ### Math detector -/

/-- An index holding a character lies inside the list. -/
theorem get?_some_lt {s : List Char} {i : Nat} {c : Char}
    (h : s.get? i = some c) : i < s.length := by
  by_contra hlt
  rw [List.get?_eq_none.mpr (by omega)] at h
  exact Option.noConfusion h

/-- The display-math scan succeeds exactly on the claim's display
condition. -/
theorem hasDisplayDollars_iff (s : List Char) :
    hasDisplayDollars s = true ↔ DisplayPairSpec s := by
  unfold hasDisplayDollars DisplayPairSpec isDollar
  simp only [List.any_eq_true, List.mem_range, Bool.and_eq_true,
    decide_eq_true_eq]
  constructor
  · rintro ⟨i, hi, ⟨h1, h2⟩, j, hj, ⟨hle, h3⟩, h4⟩
    exact ⟨i, j, h1, h2, h3, h4, hle⟩
  · rintro ⟨i, j, h1, h2, h3, h4, hle⟩
    exact ⟨i, get?_some_lt h1, ⟨h1, h2⟩, j, get?_some_lt h3, ⟨hle, h3⟩, h4⟩

/-- The `\[` scan succeeds exactly on the claim's bracket condition. -/
theorem hasBracketMath_iff (s : List Char) :
    hasBracketMath s = true ↔ BracketSpec s := by
  unfold hasBracketMath BracketSpec
  simp only [List.any_eq_true, List.mem_range, Bool.and_eq_true,
    decide_eq_true_eq]
  constructor
  · rintro ⟨i, hi, h1, h2⟩
    exact ⟨i, h1, h2⟩
  · rintro ⟨i, h1, h2⟩
    exact ⟨i, get?_some_lt h1, h1, h2⟩

/-- One inline-pattern match position satisfies exactly the claim's inline
condition plus the single-line restriction. -/
theorem inlinePairAt_iff (s : List Char) (p q : Nat) :
    inlinePairAt s p q = true ↔ InlinePairSpecAmended s p q := by
  unfold inlinePairAt InlinePairSpecAmended InlinePairSpecStated isDollar
  simp only [Bool.and_eq_true, Bool.or_eq_true, Bool.not_eq_true',
    decide_eq_true_eq, decide_eq_false_iff_not, List.all_eq_true,
    List.mem_range'_1]
  constructor
  · rintro ⟨⟨⟨⟨⟨⟨⟨⟨⟨h1, h2⟩, h3⟩, h4⟩, h5⟩, h6⟩, hmid⟩, h7⟩, h8⟩, h9⟩
    refine ⟨⟨h1, h2, h3, h4, h6, h5, h7, h8, h9⟩, ?_⟩
    intro m hm1 hm2
    exact hmid m ⟨by omega, by omega⟩
  · rintro ⟨⟨h1, h2, h3, h4, h5, h6, h7, h8, h9⟩, hmid⟩
    refine ⟨⟨⟨⟨⟨⟨⟨⟨⟨h1, h2⟩, h3⟩, h4⟩, h6⟩, h5⟩, ?_⟩, h7⟩, h8⟩, h9⟩
    intro m hm
    exact hmid m (by omega) (by omega)

/-- The inline scan succeeds exactly when some position pair satisfies the
amended inline condition. -/
theorem hasInlineDollars_iff (s : List Char) :
    hasInlineDollars s = true ↔ ∃ p q, InlinePairSpecAmended s p q := by
  unfold hasInlineDollars
  simp only [List.any_eq_true, List.mem_range]
  constructor
  · rintro ⟨p, hp, q, hq, h⟩
    exact ⟨p, q, (inlinePairAt_iff s p q).mp h⟩
  · rintro ⟨p, q, h⟩
    have hp := h.1.1
    have hq := h.1.2.1
    exact ⟨p, get?_some_lt hp, q, get?_some_lt hq,
      (inlinePairAt_iff s p q).mpr h⟩

/-- Claim C9 counterexample: `$a` newline `b$` satisfies every condition the
claim states for an inline pair — the opening and closing `$` are not
adjacent to whitespace or to another `$` — yet `_has_math_content` returns
false, because the regex's `.` does not cross the newline between them. -/
theorem C9_counterexample :
    _has_math_content "$a\nb$" = false ∧
    MathContentSpecStated "$a\nb$".data := by
  refine ⟨rfl, Or.inr (Or.inl ⟨0, 4, ?_⟩)⟩
  unfold InlinePairSpecStated
  refine ⟨rfl, rfl, by omega, Or.inl rfl, by decide, rfl, rfl, by decide,
    by decide⟩

/-- Claim C9 (amended): `_has_math_content` returns true exactly when the
input contains a display `$$...$$` pair (newlines allowed between), or an
inline `$...$` pair lying within a single line (no newline strictly between
the two `$`) whose opening `$` is not immediately followed by whitespace and
not part of a `$$` pair and whose closing `$` is not immediately preceded by
whitespace and not part of a `$$` pair, or the literal sequence `\[`
anywhere; otherwise — the empty string included — it returns false. -/
theorem C9_math_detector (content : String) :
    _has_math_content content = true ↔
      MathContentSpecAmended content.data := by
  unfold _has_math_content MathContentSpecAmended
  simp only [Bool.or_eq_true, hasDisplayDollars_iff, hasInlineDollars_iff,
    hasBracketMath_iff]
  exact or_assoc

end NotionToHexo
